import Mathlib

/-!
Shallow embedding of the toast (notification) lifecycle controller of the
`gus` component kit. The source of truth is the React Native toast module
(`ToastProvider` and the per-record `Toast` component): the queue store
callbacks `removeToast`, `dismissToast`, `updateToast`, `addToast`, the
dispatch wrappers `toast` / `toast.info` / `toast.success` / `toast.error` /
`toast.loading`, and the per-record timer / gesture / exit-animation
coordination inside the `Toast` component.

Modelling conventions:
- JS strings are `String`, JS numbers in duration positions are `Int`
  (durations can go negative in the timer-delay computation).
- A `Set<string>` is a `List String` with insertion-ordered, duplicate-free
  `setAdd` / `setDelete` operations mirroring `Set.add` / `Set.delete`.
- An object typed `Partial<ToastData>` is `ToastPatch`: every field is an
  `Option`; an absent key and a key set to `undefined` are collapsed to
  `none` (the source only ever reads field values, never tests key
  presence, so the collapse is behaviour-preserving).
- `ToastData` fields other than `id` are `Option`s because `addToast`
  builds the record with an `as ToastData` cast from a partial object, so
  any field the caller omitted is `undefined` at runtime; the `Toast`
  component re-applies defaults (`duration = 3000`, `type = 'info'`) at
  render time, modelled by `effectiveDuration` / `effectiveType`.
- `generateId()` (a fresh random id) is passed in as an explicit `fresh`
  argument.
-/

/-- The `type` field of a toast: 'info' | 'success' | 'error' | 'loading'. -/
inductive ToastType where
  | info
  | success
  | error
  | loading
deriving DecidableEq, Repr

/-- A stored toast record (interface `ToastData`). Fields other than `id`
may be `undefined` at runtime because `addToast` casts a partial object
`as ToastData`; they are therefore `Option`s here. -/
structure ToastData where
  id : String
  title : Option String := none
  description : Option String := none
  type : Option ToastType := none
  duration : Option Int := none
  className : Option String := none
  classNameTitle : Option String := none
  classNameDescription : Option String := none
  classNameIcon : Option String := none
deriving DecidableEq, Repr

/-- A `Partial ToastData` value: every field, including `id`, optional. -/
structure ToastPatch where
  id : Option String := none
  title : Option String := none
  description : Option String := none
  type : Option ToastType := none
  duration : Option Int := none
  className : Option String := none
  classNameTitle : Option String := none
  classNameDescription : Option String := none
  classNameIcon : Option String := none
deriving DecidableEq, Repr

/-- The public `ToastOptions` argument of the dispatch facade:
`id?`, `title` (required), `description?`, `duration?`, class names. -/
structure ToastOptions where
  id : Option String := none
  title : String
  description : Option String := none
  duration : Option Int := none
  className : Option String := none
  classNameTitle : Option String := none
  classNameDescription : Option String := none
  classNameIcon : Option String := none
deriving DecidableEq, Repr

/-- Provider state: `messages` (the visible records, insertion order) and
`pendingRemovals` (the ids mid-dismissal), as held by the two `useState`
hooks of `ToastProvider`. -/
@[ext]
structure QueueState where
  messages : List ToastData
  pendingRemovals : List String
deriving DecidableEq, Repr

/-- The provider's initial state: `useState([])` and `useState(new Set())`. -/
def initialQueue : QueueState := { messages := [], pendingRemovals := [] }

/-- Constant `ANIMATION_DURATION = 300`. -/
def ANIMATION_DURATION : Int := 300

/-- Constant `ANIMATION_BUFFER = 400`. -/
def ANIMATION_BUFFER : Int := 400

/-- Constant `MAX_TOASTS = 3`. -/
def MAX_TOASTS : Nat := 3

/-- Models `Set.add`: JS sets keep insertion order and ignore a re-added element. -/
def setAdd (a : String) (s : List String) : List String :=
  if s.contains a then s else s ++ [a]

/-- Models `Set.delete`: removes the element if present. -/
def setDelete (a : String) (s : List String) : List String :=
  s.filter (fun x => x ≠ a)

/-- Models `Array.prototype.slice(-n)`: the last `n` elements of the array
(the whole array when it is shorter than `n`). -/
def jsSliceLast (n : Nat) (l : List ToastData) : List ToastData :=
  l.drop (l.length - n)

/-- Models `options.id || generateId()`: JS `||` falls through on the empty
string (falsy) as well as on a missing id. -/
def resolveId (oid : Option String) (fresh : String) : String :=
  match oid with
  | some s => if s = "" then fresh else s
  | none => fresh

/-- The record built at the top of `addToast`:
`{ ...options, id: options.id || generateId() } as ToastData`. -/
def postedRecord (fresh : String) (options : ToastPatch) : ToastData :=
  { id := resolveId options.id fresh
    title := options.title
    description := options.description
    type := options.type
    duration := options.duration
    className := options.className
    classNameTitle := options.classNameTitle
    classNameDescription := options.classNameDescription
    classNameIcon := options.classNameIcon }

/-- Source `removeToast(id)`: deletes `id` from `pendingRemovals` and filters it
out of `messages`. This is the single finalization path (spec `Remove`). -/
def removeToast (id : String) (s : QueueState) : QueueState :=
  { messages := s.messages.filter (fun msg => msg.id ≠ id)
    pendingRemovals := setDelete id s.pendingRemovals }

/-- Source `dismissToast(id)`: adds `id` to `pendingRemovals`. Note the source
adds unconditionally; it does not check membership in `messages`. -/
def dismissToast (id : String) (s : QueueState) : QueueState :=
  { s with pendingRemovals := setAdd id s.pendingRemovals }

/-- JS object spread `{ ...msg, ...data }` for `data : Partial ToastData`:
a field present in `data` wins, otherwise `msg`'s field is kept. -/
def mergePatch (msg : ToastData) (data : ToastPatch) : ToastData :=
  { id := data.id.getD msg.id
    title := if data.title.isSome then data.title else msg.title
    description :=
      if data.description.isSome then data.description else msg.description
    type := if data.type.isSome then data.type else msg.type
    duration := if data.duration.isSome then data.duration else msg.duration
    className := if data.className.isSome then data.className else msg.className
    classNameTitle :=
      if data.classNameTitle.isSome then data.classNameTitle
      else msg.classNameTitle
    classNameDescription :=
      if data.classNameDescription.isSome then data.classNameDescription
      else msg.classNameDescription
    classNameIcon :=
      if data.classNameIcon.isSome then data.classNameIcon
      else msg.classNameIcon }

/-- Source `updateToast(id, data)`: maps over `messages`, replacing the record
whose id matches with `{ ...msg, ...data }`. `pendingRemovals` untouched. -/
def updateToast (id : String) (data : ToastPatch) (s : QueueState) : QueueState :=
  { s with
    messages :=
      s.messages.map (fun msg => if msg.id = id then mergePatch msg data else msg) }

/-- Source `addToast(options)`: builds the record, unconditionally deletes its id
from `pendingRemovals`, then either replaces the record with the same id in
place (upsert) or appends and truncates with `slice(-MAX_TOASTS)`.
Returns `toastData.id` together with the new state. -/
def addToast (fresh : String) (options : ToastPatch) (s : QueueState) :
    String × QueueState :=
  let toastData := postedRecord fresh options
  let pending := setDelete toastData.id s.pendingRemovals
  let msgs :=
    if toastData.id ≠ "" ∧ s.messages.any (fun msg => msg.id = toastData.id) then
      s.messages.map (fun msg => if msg.id = toastData.id then toastData else msg)
    else
      jsSliceLast MAX_TOASTS (s.messages ++ [toastData])
  (toastData.id, { messages := msgs, pendingRemovals := pending })

/-- Transcribed from the spec's words for comparison with `addToast`
(§4.2 Upsert): "Otherwise append to the end; if this exceeds capacity N,
first run Remove(oldest id) to completion, then append", with Remove being
the single finalization path `removeToast` (which clears the id from both
`visible` and `pendingRemoval`). The upsert branch and the id bookkeeping
are kept identical to the source; only the eviction path differs. -/
def addToastSpecEvict (fresh : String) (options : ToastPatch) (s : QueueState) :
    String × QueueState :=
  let toastData := postedRecord fresh options
  let pending := setDelete toastData.id s.pendingRemovals
  let s1 : QueueState := { messages := s.messages, pendingRemovals := pending }
  if toastData.id ≠ "" ∧ s.messages.any (fun msg => msg.id = toastData.id) then
    (toastData.id,
      { s1 with
        messages :=
          s1.messages.map
            (fun msg => if msg.id = toastData.id then toastData else msg) })
  else if s1.messages.length + 1 > MAX_TOASTS then
    let s2 :=
      match s1.messages.head? with
      | some oldest => removeToast oldest.id s1
      | none => s1
    (toastData.id, { s2 with messages := s2.messages ++ [toastData] })
  else
    (toastData.id, { s1 with messages := s1.messages ++ [toastData] })

/-- Spread `{ ...data }` where `data : ToastOptions` (the wrappers' spread). -/
def optionsPatch (data : ToastOptions) : ToastPatch :=
  { id := data.id
    title := some data.title
    description := data.description
    duration := data.duration
    className := data.className
    classNameTitle := data.classNameTitle
    classNameDescription := data.classNameDescription
    classNameIcon := data.classNameIcon }

/-- Wrapper `toast(data)` / `toast.info(data)`: `addToast({ ...data, type: 'info' })`. -/
def toastInfo (data : ToastOptions) : ToastPatch :=
  { optionsPatch data with type := some ToastType.info }

/-- Wrapper `toast.success(data)`: `addToast({ ...data, type: 'success' })`. -/
def toastSuccess (data : ToastOptions) : ToastPatch :=
  { optionsPatch data with type := some ToastType.success }

/-- Wrapper `toast.error(data)`: `addToast({ ...data, type: 'error' })`. -/
def toastError (data : ToastOptions) : ToastPatch :=
  { optionsPatch data with type := some ToastType.error }

/-- Wrapper `toast.loading(data)`: `addToast({ ...data, type: 'loading', duration: 0 })`.
The literal `duration: 0` comes after the spread, so it overwrites any
caller-supplied `duration`. -/
def toastLoading (data : ToastOptions) : ToastPatch :=
  { optionsPatch data with type := some ToastType.loading, duration := some 0 }

/-- Fold a sequence of posts (each a fresh id plus the patch handed to
`addToast`) over the provider state. -/
def postAll (posts : List (String × ToastPatch)) (s : QueueState) : QueueState :=
  posts.foldl (fun st q => (addToast q.1 q.2 st).2) s

/-- The id `addToast` resolves for a post. -/
def postId (q : String × ToastPatch) : String :=
  resolveId q.2.id q.1

/-- The record `addToast` stores for a post. -/
def postRecord (q : String × ToastPatch) : ToastData :=
  postedRecord q.1 q.2

/-- Default `duration = 3000` parameter of the `Toast` component. -/
def effectiveDuration (d : Option Int) : Int := d.getD 3000

/-- Default `type = 'info'` parameter of the `Toast` component. -/
def effectiveType (t : Option ToastType) : ToastType := t.getD ToastType.info

/-- The guard of the `useEffect` timer block:
`(type !== 'loading' && duration > 0) || isPendingRemoval`. -/
def timerArmedCond (ty : ToastType) (duration : Int) (isPendingRemoval : Bool) :
    Bool :=
  (decide (ty ≠ ToastType.loading) && decide (duration > 0)) || isPendingRemoval

/-- The delay passed to `setTimeout`:
`isPendingRemoval ? 0 : duration - ANIMATION_BUFFER`. -/
def timerDelay (duration : Int) (isPendingRemoval : Bool) : Int :=
  if isPendingRemoval then 0 else duration - ANIMATION_BUFFER

/-- The dependency data of the `Toast` component's `useEffect` that decide
whether the effect re-runs on a re-render (its other dependencies —
`handleDismiss`, `cleanup`, `opacity`, `translateY` — are referentially
stable across renders of the same mounted record): the effective `type`,
the effective `duration`, and `isPendingRemoval`. A re-run clears and
re-arms the timer and restarts the entrance animation. -/
def effectDeps (msg : ToastData) (pendingRemovals : List String) :
    ToastType × Int × Bool :=
  (effectiveType msg.type, effectiveDuration msg.duration,
    pendingRemovals.contains msg.id)

/-- State of one mounted `Toast` component's lifecycle coordination:
`isAnimating` is `isAnimatingRef.current` (initialised `false` by
`useRef(false)` and, in the source as written, never assigned);
`timerArmed` tracks whether `dismissTimeoutRef` holds a live, uncleared
timeout; `exitInFlight` tracks an uncancelled exit transition whose
completion callback is still due; `exitStarts` counts entries into the
exit path (`handleDismiss` bodies run); `removeCalls` counts
`onDismiss(id)` invocations (queue-store removals requested). -/
structure RecordMachine where
  isAnimating : Bool
  timerArmed : Bool
  exitInFlight : Bool
  exitStarts : Nat
  removeCalls : Nat
deriving DecidableEq, Repr

/-- Source `cleanup()`: `clearTimeout(dismissTimeoutRef.current)` and
`cancelAnimation` on both shared values. A cancelled `withTiming` invokes
its callback with `finished = false`, so the superseded exit transition's
completion never calls `finishDismiss`: cancelling clears `exitInFlight`. -/
def cleanupRun (m : RecordMachine) : RecordMachine :=
  { m with timerArmed := false, exitInFlight := false }

/-- Source `finishDismiss()`: `cleanup()` then `onDismiss(id)`. -/
def finishDismissRun (m : RecordMachine) : RecordMachine :=
  let m1 := cleanupRun m
  { m1 with removeCalls := m1.removeCalls + 1 }

/-- Source `handleDismiss()`: `cleanup()` then start the exit transition
(`withTiming` on `translateY` and `opacity`, whose completion callback
will call `finishDismiss` if not cancelled). Note: it neither checks nor
assigns `isAnimatingRef.current`. -/
def handleDismissRun (m : RecordMachine) : RecordMachine :=
  let m1 := cleanupRun m
  { m1 with exitInFlight := true, exitStarts := m1.exitStarts + 1 }

/-- The `setTimeout` callback firing: consumes the armed timer and runs
`if (!isAnimatingRef.current) handleDismiss()`. No-op if the timeout was
already cleared. -/
def timerFire (m : RecordMachine) : RecordMachine :=
  if m.timerArmed then
    let m1 := { m with timerArmed := false }
    if !m1.isAnimating then handleDismissRun m1 else m1
  else m

/-- The pan gesture's `onEnd(event)` reaching the JS thread:
`if (event.translationY < -50) handleDismiss()` else spring back to rest
(which touches only the animated position/opacity, not this state). -/
def gestureEnd (translationY : Int) (m : RecordMachine) : RecordMachine :=
  if translationY < -50 then handleDismissRun m else m

/-- The exit transition's completion callback running with
`finished = true`: only possible while the transition is still in flight
(an uncancelled `withTiming` completion), and then runs `finishDismiss`. -/
def exitComplete (m : RecordMachine) : RecordMachine :=
  if m.exitInFlight then finishDismissRun m else m

/-- A freshly mounted record after its `useEffect` ran:
`isAnimatingRef.current = false`, timer armed according to the effect's
guard, no exit in flight, no removals yet. -/
def mountedRecord (armed : Bool) : RecordMachine :=
  { isAnimating := false
    timerArmed := armed
    exitInFlight := false
    exitStarts := 0
    removeCalls := 0 }

example :
    (addToast "d" { title := some "D" } initialQueue).2.messages.map ToastData.id
      = ["d"] := by decide

example :
    (postAll
      [("a", { title := some "A" }), ("b", { title := some "B" }),
       ("c", { title := some "C" }), ("d", { title := some "D" })]
      initialQueue).messages.map ToastData.id = ["b", "c", "d"] := by decide

lemma setDelete_not_mem_self (a : String) (s : List String) :
    a ∉ setDelete a s := by
  simp [setDelete]

lemma setDelete_contains_self (a : String) (s : List String) :
    (setDelete a s).contains a = false := by
  have h := setDelete_not_mem_self a s
  simpa using h

lemma setDelete_of_not_mem {a : String} {s : List String} (h : a ∉ s) :
    setDelete a s = s := by
  apply List.filter_eq_self.mpr
  intro x hx
  simp only [decide_eq_true_eq]
  rintro rfl
  exact h hx

lemma setDelete_idem (a : String) (s : List String) :
    setDelete a (setDelete a s) = setDelete a s :=
  setDelete_of_not_mem (setDelete_not_mem_self a s)

lemma setAdd_of_mem {a : String} {s : List String} (h : a ∈ s) :
    setAdd a s = s := by
  simp [setAdd, h]

lemma setAdd_of_not_mem {a : String} {s : List String} (h : a ∉ s) :
    setAdd a s = s ++ [a] := by
  simp [setAdd, h]

lemma mem_setAdd_self (a : String) (s : List String) : a ∈ setAdd a s := by
  by_cases h : a ∈ s
  · rw [setAdd_of_mem h]; exact h
  · rw [setAdd_of_not_mem h]; simp

/-- C9: Remove(id) is idempotent — `removeToast id` applied twice equals
`removeToast id` applied once — and on an id absent both from the visible
records and from the pending-removal set it is a no-op, not an error. -/
theorem removeToast_idempotent_and_absent_noop (id : String) (s : QueueState) :
    removeToast id (removeToast id s) = removeToast id s ∧
      ((∀ msg ∈ s.messages, msg.id ≠ id) → id ∉ s.pendingRemovals →
        removeToast id s = s) := by
  constructor
  · ext1
    · apply List.filter_eq_self.mpr
      intro msg hmsg
      exact (List.mem_filter.mp hmsg).2
    · exact setDelete_idem id s.pendingRemovals
  · intro habs hpend
    ext1
    · apply List.filter_eq_self.mpr
      intro msg hmsg
      simpa using habs msg hmsg
    · exact setDelete_of_not_mem hpend

/-- C9 witness: on a state holding record "a" and pending id "b",
removing the absent id "x" twice equals removing it once, and equals
doing nothing. -/
theorem removeToast_idempotent_and_absent_noop_witness :
    removeToast "x"
        (removeToast "x"
          { messages := [{ id := "a" }], pendingRemovals := ["b"] }) =
      removeToast "x" { messages := [{ id := "a" }], pendingRemovals := ["b"] } ∧
    removeToast "x" { messages := [{ id := "a" }], pendingRemovals := ["b"] } =
      { messages := [{ id := "a" }], pendingRemovals := ["b"] } :=
  ⟨(removeToast_idempotent_and_absent_noop "x"
      { messages := [{ id := "a" }], pendingRemovals := ["b"] }).1,
   (removeToast_idempotent_and_absent_noop "x"
      { messages := [{ id := "a" }], pendingRemovals := ["b"] }).2
    (by decide) (by decide)⟩

/-- C6 counterexample: dismissing an id that is not visible is not a
no-op — `dismissToast "x"` on the empty state adds "x" to
`pendingRemovals` even though no record with id "x" is visible. -/
theorem dismissToast_absent_id_not_noop :
    dismissToast "x" initialQueue ≠ initialQueue ∧
      (dismissToast "x" initialQueue).pendingRemovals = ["x"] ∧
      ∀ msg ∈ initialQueue.messages, msg.id ≠ "x" := by
  refine ⟨by decide, by decide, ?_⟩
  intro msg hmsg
  simp [initialQueue] at hmsg

/-- C6 amended: `dismissToast id` adds `id` to `pendingRemovals`
unconditionally (idempotently, preserving insertion order) and never
touches the visible records; in particular an id that is not visible
still enters `pendingRemovals` as a stale entry. -/
theorem dismissToast_unconditional_add (id : String) (s : QueueState) :
    (dismissToast id s).messages = s.messages ∧
      id ∈ (dismissToast id s).pendingRemovals ∧
      (id ∉ s.pendingRemovals →
        (dismissToast id s).pendingRemovals = s.pendingRemovals ++ [id]) ∧
      (id ∈ s.pendingRemovals → dismissToast id s = s) := by
  refine ⟨rfl, mem_setAdd_self id s.pendingRemovals, ?_, ?_⟩
  · intro h
    exact setAdd_of_not_mem h
  · intro h
    ext1
    · rfl
    · exact setAdd_of_mem h

/-- C6 amended witness: dismissing "x" on the empty state keeps the
visible list empty and yields pendingRemovals = ["x"]. -/
theorem dismissToast_unconditional_add_witness :
    (dismissToast "x" initialQueue).messages = initialQueue.messages ∧
      (dismissToast "x" initialQueue).pendingRemovals =
        initialQueue.pendingRemovals ++ ["x"] :=
  ⟨(dismissToast_unconditional_add "x" initialQueue).1,
   (dismissToast_unconditional_add "x" initialQueue).2.2.1 (by decide)⟩

/-- C4 counterexample: `toast.loading` with an explicit caller-supplied
duration of 5000 still produces a record with duration 0 — the literal
`duration: 0` is written after the spread `...data`, so the caller's
duration is overwritten, not honored. -/
theorem toastLoading_ignores_caller_duration :
    (toastLoading { title := "t", duration := some 5000 }).duration = some 0 ∧
      (postedRecord "f"
          (toastLoading { title := "t", duration := some 5000 })).duration ≠
        some 5000 := by
  decide

/-- C4 amended: `toast.loading` is `post` with category fixed to loading
and `duration` forced to 0 unconditionally — a caller-supplied duration is
overwritten — so a loading record never arms the auto-expiry timer while
not pending removal. -/
theorem toastLoading_forces_zero_duration (data : ToastOptions) (fresh : String) :
    (toastLoading data).type = some ToastType.loading ∧
      (toastLoading data).duration = some 0 ∧
      (postedRecord fresh (toastLoading data)).duration = some 0 ∧
      timerArmedCond
          (effectiveType (postedRecord fresh (toastLoading data)).type)
          (effectiveDuration (postedRecord fresh (toastLoading data)).duration)
          false = false := by
  refine ⟨rfl, rfl, rfl, ?_⟩
  simp [toastLoading, optionsPatch, postedRecord, timerArmedCond,
    effectiveType, effectiveDuration]

/-- C5 counterexample: for a non-loading record with duration 100 (below
ANIMATION_BUFFER = 400) that is not pending removal, the timer is armed
with delay -300, not with max(0, 100 - 400) = 0: the delay handed to
setTimeout is negative. -/
theorem timerDelay_negative_below_buffer :
    timerArmedCond ToastType.info 100 false = true ∧
      timerDelay 100 false = -300 ∧
      timerDelay 100 false ≠ max 0 (100 - ANIMATION_BUFFER) := by
  decide

/-- C5 amended: for every non-loading record with positive duration that
is not pending removal at creation, the timer is armed and its delay is
exactly duration - ANIMATION_BUFFER, unclamped — it coincides with
max(0, duration - ANIMATION_BUFFER) only when duration ≥ ANIMATION_BUFFER,
and is negative for shorter durations. -/
theorem timerDelay_exact_unclamped (d : Int) (ty : ToastType)
    (hty : ty ≠ ToastType.loading) (hd : 0 < d) :
    timerArmedCond ty d false = true ∧
      timerDelay d false = d - ANIMATION_BUFFER ∧
      (ANIMATION_BUFFER ≤ d →
        timerDelay d false = max 0 (d - ANIMATION_BUFFER)) := by
  refine ⟨?_, rfl, ?_⟩
  · simp [timerArmedCond, hty, hd]
  · intro hle
    simp only [timerDelay, if_neg Bool.false_ne_true]
    rw [max_eq_right]
    omega

/-- C5 amended witness: an info record with the default duration 3000
arms the timer with delay 2600 = max(0, 3000 - 400). -/
theorem timerDelay_exact_unclamped_witness :
    timerArmedCond ToastType.info 3000 false = true ∧
      timerDelay 3000 false = 3000 - ANIMATION_BUFFER ∧
      timerDelay 3000 false = max 0 (3000 - ANIMATION_BUFFER) :=
  ⟨(timerDelay_exact_unclamped 3000 ToastType.info (by decide) (by decide)).1,
   (timerDelay_exact_unclamped 3000 ToastType.info (by decide) (by decide)).2.1,
   (timerDelay_exact_unclamped 3000 ToastType.info (by decide) (by decide)).2.2
    (by decide)⟩

/-- C10: posting always deletes the posted id from `pendingRemovals`
(unconditionally, before the visible-list update), so the freshly posted
record never starts life pending removal: the `isPendingRemoval` flag its
component receives is false and the immediate 0-delay branch of the
dismissal timer is never selected for it. -/
theorem addToast_clears_pending_for_posted_id (fresh : String)
    (options : ToastPatch) (s : QueueState) :
    (addToast fresh options s).1 ∉ (addToast fresh options s).2.pendingRemovals ∧
      ((addToast fresh options s).2.pendingRemovals.contains
          (addToast fresh options s).1) = false ∧
      ∀ d : Int,
        timerDelay d
            ((addToast fresh options s).2.pendingRemovals.contains
              (addToast fresh options s).1) =
          d - ANIMATION_BUFFER := by
  have h1 : (addToast fresh options s).2.pendingRemovals =
      setDelete (addToast fresh options s).1 s.pendingRemovals := rfl
  refine ⟨?_, ?_, ?_⟩
  · rw [h1]; exact setDelete_not_mem_self _ _
  · rw [h1]; exact setDelete_contains_self _ _
  · intro d
    rw [h1, setDelete_contains_self]
    rfl

lemma addToast_messages_of_not_present (fresh : String) (options : ToastPatch)
    (s : QueueState)
    (h : s.messages.any
        (fun msg => msg.id = resolveId options.id fresh) = false) :
    (addToast fresh options s).2.messages =
      jsSliceLast MAX_TOASTS (s.messages ++ [postedRecord fresh options]) := by
  simp only [addToast]
  rw [if_neg]
  rintro ⟨-, h2⟩
  rw [show (postedRecord fresh options).id = resolveId options.id fresh from rfl]
    at h2
  rw [h] at h2
  exact Bool.false_ne_true h2

lemma addToast_messages_of_present (fresh : String) (options : ToastPatch)
    (s : QueueState) (hne : resolveId options.id fresh ≠ "")
    (h : s.messages.any
        (fun msg => msg.id = resolveId options.id fresh) = true) :
    (addToast fresh options s).2.messages =
      s.messages.map
        (fun msg =>
          if msg.id = resolveId options.id fresh then postedRecord fresh options
          else msg) := by
  simp only [addToast]
  split
  · rfl
  · rename_i hcond
    exact absurd ⟨hne, h⟩ hcond

/-- C1 counterexample: with visible records a, b, c (a mid-exit, so
pendingRemovals = set of a) and a post of the fresh id d, the source's
eviction keeps "a" in pendingRemovals — it truncates with slice(-3)
instead of running Remove(oldest id) to completion, which would have
cleared "a" from pendingRemovals before appending, as the comparison
definition transcribed from the spec does. -/
theorem addToast_eviction_not_via_remove :
    (addToast "d" { title := some "D" }
        { messages := [{ id := "a" }, { id := "b" }, { id := "c" }],
          pendingRemovals := ["a"] }).2.pendingRemovals = ["a"] ∧
      (addToastSpecEvict "d" { title := some "D" }
          { messages := [{ id := "a" }, { id := "b" }, { id := "c" }],
            pendingRemovals := ["a"] }).2.pendingRemovals = [] ∧
      (addToast "d" { title := some "D" }
          { messages := [{ id := "a" }, { id := "b" }, { id := "c" }],
            pendingRemovals := ["a"] }).2 ≠
        (addToastSpecEvict "d" { title := some "D" }
            { messages := [{ id := "a" }, { id := "b" }, { id := "c" }],
              pendingRemovals := ["a"] }).2 ∧
      (addToast "d" { title := some "D" }
          { messages := [{ id := "a" }, { id := "b" }, { id := "c" }],
            pendingRemovals := ["a"] }).2.messages.map ToastData.id =
        ["b", "c", "d"] := by
  decide

/-- C1 amended: when a post with an id not currently visible arrives at
capacity, `addToast` appends the new record and truncates to the last
MAX_TOASTS entries — the oldest record is dropped from `messages` without
invoking `removeToast`, so the pending-removal set is only purged of the
posted id; in particular an evicted record's id that was pending removal
stays in `pendingRemovals`. -/
theorem addToast_eviction_truncates (fresh : String) (options : ToastPatch)
    (s : QueueState) (hlen : s.messages.length = MAX_TOASTS)
    (habs : ∀ msg ∈ s.messages, msg.id ≠ resolveId options.id fresh) :
    (addToast fresh options s).2.messages =
        s.messages.tail ++ [postedRecord fresh options] ∧
      (addToast fresh options s).2.pendingRemovals =
        setDelete (resolveId options.id fresh) s.pendingRemovals ∧
      ∀ oid ∈ s.pendingRemovals, oid ≠ resolveId options.id fresh →
        oid ∈ (addToast fresh options s).2.pendingRemovals := by
  have hany : s.messages.any
      (fun msg => msg.id = resolveId options.id fresh) = false := by
    rw [List.any_eq_false]
    intro msg hmsg
    simpa using habs msg hmsg
  refine ⟨?_, rfl, ?_⟩
  · rw [addToast_messages_of_not_present fresh options s hany]
    unfold jsSliceLast
    rw [List.length_append, hlen, List.length_singleton,
      show MAX_TOASTS + 1 - MAX_TOASTS = 1 from rfl,
      List.drop_append_of_le_length (by rw [hlen]; decide), List.drop_one]
  · intro oid hmem hne
    have : (addToast fresh options s).2.pendingRemovals =
        setDelete (resolveId options.id fresh) s.pendingRemovals := rfl
    rw [this]
    simp only [setDelete, List.mem_filter, decide_eq_true_eq]
    exact ⟨hmem, hne⟩

/-- C1 amended witness: at the concrete at-capacity state with records
a, b, c (a pending removal), posting the fresh id d yields visible
b, c, d and leaves "a" in pendingRemovals. -/
theorem addToast_eviction_truncates_witness :
    (addToast "e" { title := some "E" }
        { messages := [{ id := "a" }, { id := "b" }, { id := "c" }],
          pendingRemovals := ["a"] }).2.messages =
        [{ id := "b" }, { id := "c" }].append
          [postedRecord "e" { title := some "E" }] ∧
      "a" ∈ (addToast "e" { title := some "E" }
          { messages := [{ id := "a" }, { id := "b" }, { id := "c" }],
            pendingRemovals := ["a"] }).2.pendingRemovals :=
  ⟨(addToast_eviction_truncates "e" { title := some "E" }
      { messages := [{ id := "a" }, { id := "b" }, { id := "c" }],
        pendingRemovals := ["a"] } (by decide) (by decide)).1,
   (addToast_eviction_truncates "e" { title := some "E" }
      { messages := [{ id := "a" }, { id := "b" }, { id := "c" }],
        pendingRemovals := ["a"] } (by decide) (by decide)).2.2 "a"
    (by decide) (by decide)⟩

lemma rtake_rtake_toast (l : List ToastData) (n m : Nat) :
    (l.rtake m).rtake n = l.rtake (min n m) := by
  simp [List.rtake_eq_reverse_take_reverse, List.take_take]

lemma jsSliceLast_snoc (l : List ToastData) (a : ToastData) :
    jsSliceLast MAX_TOASTS (jsSliceLast MAX_TOASTS l ++ [a]) =
      jsSliceLast MAX_TOASTS (l ++ [a]) := by
  show (l.rtake 3 ++ [a]).rtake 3 = (l ++ [a]).rtake 3
  rw [show (3 : Nat) = 2 + 1 from rfl, List.rtake_concat_succ,
    List.rtake_concat_succ, rtake_rtake_toast]
  norm_num

lemma jsSliceLast_subset (n : Nat) (l : List ToastData) :
    jsSliceLast n l ⊆ l :=
  List.drop_subset _ _

lemma jsSliceLast_length_le (n : Nat) (l : List ToastData) :
    (jsSliceLast n l).length ≤ n := by
  unfold jsSliceLast
  rw [List.length_drop]
  omega

lemma addToast_length_le (fresh : String) (options : ToastPatch)
    (s : QueueState) (h : s.messages.length ≤ MAX_TOASTS) :
    (addToast fresh options s).2.messages.length ≤ MAX_TOASTS := by
  simp only [addToast]
  split
  · simpa using h
  · exact jsSliceLast_length_le _ _

lemma postAll_append_single (posts : List (String × ToastPatch))
    (q : String × ToastPatch) (s : QueueState) :
    postAll (posts ++ [q]) s = (addToast q.1 q.2 (postAll posts s)).2 := by
  simp [postAll, List.foldl_append]

lemma postAll_length_le (posts : List (String × ToastPatch)) :
    ∀ s : QueueState, s.messages.length ≤ MAX_TOASTS →
      (postAll posts s).messages.length ≤ MAX_TOASTS := by
  induction posts with
  | nil => intro s h; exact h
  | cons q rest ih =>
      intro s h
      exact ih _ (addToast_length_le q.1 q.2 s h)

lemma postAll_fresh_messages (posts : List (String × ToastPatch))
    (h : (posts.map postId).Nodup) :
    (postAll posts initialQueue).messages =
      jsSliceLast MAX_TOASTS (posts.map postRecord) := by
  induction posts using List.reverseRecOn with
  | nil => rfl
  | append_singleton posts q ih =>
      rw [List.map_append, List.nodup_append] at h
      obtain ⟨h1, -, hdisj⟩ := h
      have hnotin : postId q ∉ posts.map postId := by
        intro hmem
        exact hdisj hmem (by simp)
      rw [postAll_append_single]
      have hany : (postAll posts initialQueue).messages.any
          (fun msg => msg.id = resolveId q.2.id q.1) = false := by
        rw [List.any_eq_false]
        intro msg hmsg
        rw [ih h1] at hmsg
        have hmem : msg ∈ posts.map postRecord :=
          jsSliceLast_subset _ _ hmsg
        obtain ⟨q', hq', rfl⟩ := List.mem_map.mp hmem
        have hidq : (postRecord q').id = postId q' := rfl
        simp only [hidq, decide_eq_true_eq]
        intro heq
        apply hnotin
        have heq' : postId q' = postId q := heq
        exact heq' ▸ List.mem_map_of_mem postId hq'
      rw [addToast_messages_of_not_present q.1 q.2 _ hany, ih h1,
        List.map_append]
      exact jsSliceLast_snoc _ _

/-- C3: for every sequence of posts, the visible list never holds more
than MAX_TOASTS = 3 records; and when the posted ids are pairwise
distinct (fresh ids), the visible records are exactly the records of the
most recent 3 posts, in insertion order — posting a, b, c, d leaves
b, c, d, with the oldest evicted first. -/
theorem postAll_capacity_and_recency (posts : List (String × ToastPatch)) :
    (postAll posts initialQueue).messages.length ≤ MAX_TOASTS ∧
      ((posts.map postId).Nodup →
        (postAll posts initialQueue).messages =
          jsSliceLast MAX_TOASTS (posts.map postRecord)) :=
  ⟨postAll_length_le posts initialQueue (by decide),
   fun h => postAll_fresh_messages posts h⟩

/-- C3 witness: posting a, b, c, d (fresh ids) keeps at most 3 records
visible, and the survivors are exactly the records of the last three
posts b, c, d in order. -/
theorem postAll_capacity_and_recency_witness :
    (postAll
        [("a", { title := some "A" }), ("b", { title := some "B" }),
         ("c", { title := some "C" }), ("d", { title := some "D" })]
        initialQueue).messages.length ≤ MAX_TOASTS ∧
      (postAll
          [("a", { title := some "A" }), ("b", { title := some "B" }),
           ("c", { title := some "C" }), ("d", { title := some "D" })]
          initialQueue).messages =
        jsSliceLast MAX_TOASTS
          ([("a", ({ title := some "A" } : ToastPatch)),
            ("b", { title := some "B" }), ("c", { title := some "C" }),
            ("d", { title := some "D" })].map postRecord) :=
  ⟨(postAll_capacity_and_recency
      [("a", { title := some "A" }), ("b", { title := some "B" }),
       ("c", { title := some "C" }), ("d", { title := some "D" })]).1,
   (postAll_capacity_and_recency
      [("a", { title := some "A" }), ("b", { title := some "B" }),
       ("c", { title := some "C" }), ("d", { title := some "D" })]).2
    (by decide)⟩

/-- C7: posting an id that is already visible upserts: the returned id is
that id, the matching record's content is replaced in place (every other
record untouched), positions and the id sequence are unchanged, the
visible list does not grow, and the id is cleared from pendingRemovals —
a re-post cancels a pending dismissal, so the record does not start the
immediate-dismissal path. -/
theorem addToast_upsert_in_place (fresh : String) (options : ToastPatch)
    (s : QueueState) (hne : resolveId options.id fresh ≠ "")
    (hmem : s.messages.any
        (fun msg => msg.id = resolveId options.id fresh) = true) :
    (addToast fresh options s).1 = resolveId options.id fresh ∧
      (addToast fresh options s).2.messages =
        s.messages.map
          (fun msg =>
            if msg.id = resolveId options.id fresh then
              postedRecord fresh options
            else msg) ∧
      (addToast fresh options s).2.messages.map ToastData.id =
        s.messages.map ToastData.id ∧
      (addToast fresh options s).2.messages.length = s.messages.length ∧
      (addToast fresh options s).2.pendingRemovals =
        setDelete (resolveId options.id fresh) s.pendingRemovals ∧
      resolveId options.id fresh ∉ (addToast fresh options s).2.pendingRemovals := by
  have hmsgs := addToast_messages_of_present fresh options s hne hmem
  refine ⟨rfl, hmsgs, ?_, ?_, rfl, setDelete_not_mem_self _ _⟩
  · rw [hmsgs, List.map_map]
    apply List.map_congr_left
    intro msg hmsg
    by_cases hid : msg.id = resolveId options.id fresh
    · simp only [Function.comp_apply, hid, if_pos]
      rfl
    · simp only [Function.comp_apply, hid, if_neg, not_false_iff]
  · rw [hmsgs, List.length_map]

/-- C7 witness: with records x, y visible and x pending removal,
re-posting id x replaces x's record in place, keeps the id sequence
x, y and the length 2, and clears x from pendingRemovals. -/
theorem addToast_upsert_in_place_witness :
    (addToast "f" { id := some "x", title := some "T2" }
        { messages := [{ id := "x", title := some "T1" }, { id := "y" }],
          pendingRemovals := ["x"] }).1 = "x" ∧
      (addToast "f" { id := some "x", title := some "T2" }
          { messages := [{ id := "x", title := some "T1" }, { id := "y" }],
            pendingRemovals := ["x"] }).2.messages.map ToastData.id =
        ["x", "y"] ∧
      (addToast "f" { id := some "x", title := some "T2" }
          { messages := [{ id := "x", title := some "T1" }, { id := "y" }],
            pendingRemovals := ["x"] }).2.messages.length = 2 ∧
      "x" ∉ (addToast "f" { id := some "x", title := some "T2" }
          { messages := [{ id := "x", title := some "T1" }, { id := "y" }],
            pendingRemovals := ["x"] }).2.pendingRemovals := by
  refine ⟨?_, ?_, ?_, ?_⟩
  · exact (addToast_upsert_in_place "f" { id := some "x", title := some "T2" }
      { messages := [{ id := "x", title := some "T1" }, { id := "y" }],
        pendingRemovals := ["x"] } (by decide) (by decide)).1
  · rw [(addToast_upsert_in_place "f" { id := some "x", title := some "T2" }
      { messages := [{ id := "x", title := some "T1" }, { id := "y" }],
        pendingRemovals := ["x"] } (by decide) (by decide)).2.2.1]
    decide
  · rw [(addToast_upsert_in_place "f" { id := some "x", title := some "T2" }
      { messages := [{ id := "x", title := some "T1" }, { id := "y" }],
        pendingRemovals := ["x"] } (by decide) (by decide)).2.2.2.1]
    decide
  · exact (addToast_upsert_in_place "f" { id := some "x", title := some "T2" }
      { messages := [{ id := "x", title := some "T1" }, { id := "y" }],
        pendingRemovals := ["x"] } (by decide) (by decide)).2.2.2.2.2

/-- C8 counterexample: `updateToast` with a partial that carries an `id`
field does change the record's id — updating record "x" with the partial
whose id is "y" leaves the visible id sequence as y, not x — so the claim
that update never changes the record's id fails as stated. -/
theorem updateToast_can_change_id :
    (updateToast "x" { id := some "y" }
        { messages := [{ id := "x" }], pendingRemovals := [] }).messages.map
        ToastData.id = ["y"] ∧
      (updateToast "x" { id := some "y" }
          { messages := [{ id := "x" }], pendingRemovals := [] }).messages.map
          ToastData.id ≠ ["x"] := by
  decide

/-- C8 amended: for a partial that does not carry an `id` field,
`updateToast id' p` merges the partial into the record whose id is `id'`,
preserving every record's id and position, the visible length, and the
pendingRemovals set; it is a no-op when no visible record has id `id'`;
and when the partial also carries neither `type` nor `duration`, the
per-record effect dependencies are unchanged, so the timer and animations
are not reset by the re-render. -/
theorem updateToast_merges_content (id' : String) (p : ToastPatch)
    (s : QueueState) (hid : p.id = none) :
    (updateToast id' p s).pendingRemovals = s.pendingRemovals ∧
      (updateToast id' p s).messages =
        s.messages.map
          (fun msg => if msg.id = id' then mergePatch msg p else msg) ∧
      (updateToast id' p s).messages.map ToastData.id =
        s.messages.map ToastData.id ∧
      (updateToast id' p s).messages.length = s.messages.length ∧
      ((∀ msg ∈ s.messages, msg.id ≠ id') → updateToast id' p s = s) ∧
      (p.type = none → p.duration = none →
        ∀ msg : ToastData,
          effectDeps (mergePatch msg p) s.pendingRemovals =
            effectDeps msg s.pendingRemovals) := by
  have hmid : ∀ msg : ToastData, (mergePatch msg p).id = msg.id := by
    intro msg
    simp [mergePatch, hid]
  refine ⟨rfl, rfl, ?_, List.length_map _ _, ?_, ?_⟩
  · show (s.messages.map _).map ToastData.id = _
    rw [List.map_map]
    apply List.map_congr_left
    intro msg hmsg
    by_cases hm : msg.id = id'
    · simp only [Function.comp_apply, hm, if_pos]
      rw [hmid, hm]
    · simp only [Function.comp_apply, hm, if_neg, not_false_iff]
  · intro habs
    ext1
    · show s.messages.map _ = s.messages
      have : ∀ msg ∈ s.messages,
          (if msg.id = id' then mergePatch msg p else msg) = msg := by
        intro msg hmsg
        rw [if_neg (habs msg hmsg)]
      rw [List.map_congr_left this]
      simp
    · rfl
  · intro ht hd msg
    simp [effectDeps, effectiveType, effectiveDuration, mergePatch, hid, ht, hd]

/-- C8 amended witness: updating record "x"'s title (a partial with no id,
type, or duration) changes the title in place, preserves ids, length and
pendingRemovals, and leaves the effect dependencies of every record
unchanged. -/
theorem updateToast_merges_content_witness :
    (updateToast "x" { title := some "new" }
        { messages := [{ id := "x", title := some "old" }],
          pendingRemovals := [] }).pendingRemovals = [] ∧
      (updateToast "x" { title := some "new" }
          { messages := [{ id := "x", title := some "old" }],
            pendingRemovals := [] }).messages.map ToastData.id = ["x"] ∧
      effectDeps
          (mergePatch { id := "x", title := some "old" }
            { title := some "new" }) [] =
        effectDeps { id := "x", title := some "old" } [] := by
  refine ⟨?_, ?_, ?_⟩
  · exact (updateToast_merges_content "x" { title := some "new" }
      { messages := [{ id := "x", title := some "old" }],
        pendingRemovals := [] } (by decide)).1
  · rw [(updateToast_merges_content "x" { title := some "new" }
      { messages := [{ id := "x", title := some "old" }],
        pendingRemovals := [] } (by decide)).2.2.1]
    decide
  · exact (updateToast_merges_content "x" { title := some "new" }
      { messages := [{ id := "x", title := some "old" }],
        pendingRemovals := [] } (by decide)).2.2.2.2.2 (by decide) (by decide)
      { id := "x", title := some "old" }

/-- C2 (the guard the spec describes, evaluated at the racing scenario):
a mounted record with its timer armed; the timer fires and enters the
exit path, yet `isAnimatingRef.current` stays false because the source
never assigns it; a subsequent gesture release past the threshold
(translationY = -60) is then processed and re-enters the exit path
(exitStarts = 2) instead of being a no-op; the record is nevertheless
removed exactly once, only because cancelling the superseded exit
animation suppresses its completion callback. -/
theorem exit_guard_flag_never_set :
    (timerFire (mountedRecord true)).exitStarts = 1 ∧
      (timerFire (mountedRecord true)).isAnimating = false ∧
      (gestureEnd (-60) (timerFire (mountedRecord true))).exitStarts = 2 ∧
      gestureEnd (-60) (timerFire (mountedRecord true)) ≠
        timerFire (mountedRecord true) ∧
      (exitComplete
          (gestureEnd (-60) (timerFire (mountedRecord true)))).removeCalls = 1 := by
  decide
